import Mathlib

/-!
Verification of the inventory core of `data-base-with-telegram`.

The repository stores optical-frame records in a SQLite table (`models.py`,
`db.py`) and mutates them through two front ends: a CLI (`main.py`) and a
Telegram bot (`telegram_bot.py`).  This file gives a shallow embedding of the
data model and of the operations the specification talks about:

* Python strings are embedded as `List Char` (named `Str` below); `None` as
  `Option.none`; Python floats as `ℚ`; SQL integer columns as `Int`.
* the record store is a list of rows plus a fresh-id counter; each bot
  command is a pure state transition on that store (one transition per
  `session.commit()` in the source).
* Python truthiness/membership tests such as `x in (None, "", 0)` are
  embedded per column type (`pyEmptyS`, `pyEmptyI`, `pyEmptyQ`).

Every definition is translated from the named source location, except
`csvReadField`/`undupQuotes`, which model the spec's "standard CSV reader"
used only to state the CSV round-trip property.
-/

/-- Python strings, embedded as character lists so that all operations are
kernel-computable. -/
abbrev Str := List Char

/-- Python `str.lower()` / SQL `lower(...)`. -/
def lowerStr (s : Str) : Str := s.map Char.toLower

/-- The closed material enumeration, `models.py` `MATERIAL_CHOICES`. -/
def MATERIAL_CHOICES : List Str :=
  ["plastic".data, "acetate".data, "metal".data, "stainless steel".data,
   "titanium".data, "aluminum".data, "wood".data, "carbon fiber".data,
   "other".data, "unknown".data]

/-- A row of the `frames` table (`models.py` class `Frame`).  Nullable
columns are `Option`; `stock` is the SQL integer column (non-null, default
0).  The field defaults below are only a notational shorthand for writing
concrete test rows in theorems; the creation-time defaults of the code are
applied explicitly in `mkFrame`. -/
structure Frame where
  id : Nat := 0
  brand : Option Str := none
  model_code : Str := []
  material : Option Str := none
  lens_width : Option Int := none
  bridge_size : Option Int := none
  temple_length : Option Int := none
  color : Option Str := none
  shape : Option Str := none
  gender : Option Str := none
  price : Option ℚ := none
  stock : Int := 0
  notes : Option Str := none
  created_at : Nat := 0
deriving DecidableEq, Repr

/-- A normalized candidate dictionary, i.e. the output of
`normalize_fields` in `telegram_bot.py` (or the accumulated `/new`
conversation data): a sparse mapping from settable field names to typed
values.  `none` means "key absent from the dict". -/
structure Cand where
  brand : Option Str := none
  model_code : Option Str := none
  material : Option Str := none
  lens_width : Option Int := none
  bridge_size : Option Int := none
  temple_length : Option Int := none
  color : Option Str := none
  shape : Option Str := none
  gender : Option Str := none
  price : Option ℚ := none
  stock : Option Int := none
  notes : Option Str := none
deriving DecidableEq, Repr

/-- Python `v in (None, "", 0)` for a text column: `None` or `""`
(a string never equals `0`). -/
def pyEmptyS : Option Str → Bool
  | none => true
  | some s => decide (s = [])

/-- Python `v in (None, "", 0)` for an integer column: `None` or `0`
(an int never equals `""`). -/
def pyEmptyI : Option Int → Bool
  | none => true
  | some n => decide (n = 0)

/-- Python `v in (None, "", 0)` for a float column: `None` or `0.0`. -/
def pyEmptyQ : Option ℚ → Bool
  | none => true
  | some q => decide (q = 0)

/-- Python `v not in (None, "")` for a text value: present and non-blank. -/
def srcOkS : Option Str → Bool
  | none => false
  | some s => decide (s ≠ [])

/-- Python `v not in (None, "")` for an integer value: any present int
passes, including `0` (`0 == ""` is false in Python). -/
def srcOkI : Option Int → Bool
  | none => false
  | some _ => true

/-- Python `v not in (None, "")` for a float value: any present float
passes, including `0.0`. -/
def srcOkQ : Option ℚ → Bool
  | none => false
  | some _ => true

/-- The shared shape of every fill-only-if-empty assignment in the source:
`if <existing is empty> and <incoming passes>: overwrite`. -/
def fillBy (em ok : Option α → Bool) (ex c : Option α) : Option α :=
  if em ex && ok c then c else ex

/-- Fill for text fields in `/add` and `/merge`
(`telegram_bot.py:316` and `telegram_bot.py:694`). -/
def fillS (ex c : Option Str) : Option Str := fillBy pyEmptyS srcOkS ex c

/-- Fill for integer fields in `/add` and `/merge`. -/
def fillI (ex c : Option Int) : Option Int := fillBy pyEmptyI srcOkI ex c

/-- Fill for float fields in `/add` and `/merge`. -/
def fillQ (ex c : Option ℚ) : Option ℚ := fillBy pyEmptyQ srcOkQ ex c

/-- Fill for text fields in the `/new` confirm path
(`telegram_bot.py:427`): the only condition on the incoming value is `f in
data`, i.e. presence. -/
def fillNCS (ex c : Option Str) : Option Str :=
  fillBy pyEmptyS (fun v => v.isSome) ex c

/-- Fill for integer fields in the `/new` confirm path. -/
def fillNCI (ex c : Option Int) : Option Int :=
  fillBy pyEmptyI (fun v => v.isSome) ex c

/-- Fill for float fields in the `/new` confirm path. -/
def fillNCQ (ex c : Option ℚ) : Option ℚ :=
  fillBy pyEmptyQ (fun v => v.isSome) ex c

/-- The candidate side of the Matching Key,
`telegram_bot.py:296-297`: `((norm.get("brand") or "").lower(),
norm["model_code"].lower())`.  `model_code` is read with a default so the
function is total; the code only reaches the query when it is present. -/
def candKey (c : Cand) : Str × Str :=
  (lowerStr (c.brand.getD []), lowerStr (c.model_code.getD []))

/-- The stored-record side of the Matching Key, from the dedup query
`telegram_bot.py:298-303`: `coalesce(lower(brand), '')` and
`lower(model_code)`. -/
def frameKey (f : Frame) : Str × Str :=
  ((f.brand.map lowerStr).getD [], lowerStr f.model_code)

/-- The dedup query predicate of `/add`: the stored row's key equals the
candidate's key. -/
def keyMatches (c : Cand) (f : Frame) : Bool :=
  decide (frameKey f = candKey c)

/-- The record store: the `frames` table rows in id-insertion order plus
the next autoincrement id. -/
structure Store where
  frames : List Frame
  nextId : Nat
deriving Repr

/-- Stock delta of the `/add` merge path, `telegram_bot.py:306-309`:
`add_stock = norm.get("stock", 0) or 0; if add_stock == 0: add_stock = 1`.
(The `/new` confirm path `data.get("stock") or 0 or 1` computes the same
value.) -/
def mergeAddStock (c : Cand) : Int :=
  if c.stock.getD 0 = 0 then 1 else c.stock.getD 0

/-- The `/add` merge path applied to the found row,
`telegram_bot.py:305-317`: add the stock delta, then fill each of the nine
updatable fields only if currently empty and the candidate value is not
`None`/blank. -/
def mergeInto (ex : Frame) (c : Cand) : Frame :=
  { ex with
    stock := ex.stock + mergeAddStock c
    material := fillS ex.material c.material
    lens_width := fillI ex.lens_width c.lens_width
    bridge_size := fillI ex.bridge_size c.bridge_size
    temple_length := fillI ex.temple_length c.temple_length
    color := fillS ex.color c.color
    shape := fillS ex.shape c.shape
    gender := fillS ex.gender c.gender
    price := fillQ ex.price c.price
    notes := fillS ex.notes c.notes }

/-- The `/new` confirm merge path, `telegram_bot.py:421-428`: same stock
delta, but a field is filled whenever it is currently empty and the key is
present in the conversation data (no check on the incoming value). -/
def mergeIntoNC (ex : Frame) (c : Cand) : Frame :=
  { ex with
    stock := ex.stock + mergeAddStock c
    material := fillNCS ex.material c.material
    lens_width := fillNCI ex.lens_width c.lens_width
    bridge_size := fillNCI ex.bridge_size c.bridge_size
    temple_length := fillNCI ex.temple_length c.temple_length
    color := fillNCS ex.color c.color
    shape := fillNCS ex.shape c.shape
    gender := fillNCS ex.gender c.gender
    price := fillNCQ ex.price c.price
    notes := fillNCS ex.notes c.notes }

/-- Row built by the `/add` create path, `telegram_bot.py:324-327`:
`Frame(**norm)` with the column default `material="unknown"` applied at
insert, `created_at = utcnow()`, and `stock = 1` when the candidate did not
supply a stock. -/
def mkFrame (c : Cand) (m : Str) (idv now : Nat) : Frame :=
  { id := idv
    brand := c.brand
    model_code := m
    material := some (c.material.getD "unknown".data)
    lens_width := c.lens_width
    bridge_size := c.bridge_size
    temple_length := c.temple_length
    color := c.color
    shape := c.shape
    gender := c.gender
    price := c.price
    stock := c.stock.getD 1
    notes := c.notes
    created_at := now }

/-- Reply outcome of the `/add` command. -/
inductive AddRes where
  | missingModel
  | updated (idv : Nat) (oldStock newStock : Int)
  | created (idv : Nat) (stock : Int)
deriving DecidableEq, Repr

/-- Replace the first row satisfying `p` (the row object returned by
`.first()` and mutated in place by the merge path). -/
def replaceFirst (p : Frame → Bool) (x : Frame) : List Frame → List Frame
  | [] => []
  | f :: fs => if p f then x :: fs else f :: replaceFirst p x fs

/-- The `/add` command core, `telegram_bot.py:287-333`: missing model is
rejected; a row with the same Matching Key is merged into; otherwise a new
row is inserted with the next id. -/
def addCmd (s : Store) (c : Cand) (now : Nat) : AddRes × Store :=
  match c.model_code with
  | none => (.missingModel, s)
  | some m =>
    match s.frames.find? (keyMatches c) with
    | some ex =>
      (.updated ex.id ex.stock (mergeInto ex c).stock,
       { s with frames := replaceFirst (keyMatches c) (mergeInto ex c) s.frames })
    | none =>
      (.created s.nextId (mkFrame c m s.nextId now).stock,
       { frames := s.frames ++ [mkFrame c m s.nextId now], nextId := s.nextId + 1 })

/-- The CLI front end's insert, `main.py:81-86` `add_frame`: the
prompt-built row is inserted unconditionally (no Matching-Key lookup), with
a store-assigned id. -/
def add_frame (s : Store) (f : Frame) : Store :=
  { frames := s.frames ++ [{ f with id := s.nextId }], nextId := s.nextId + 1 }

/-- Reply outcome of the `/merge` command. -/
inductive MergeRes where
  | mustDiffer
  | notFound
  | merged (sid tid : Nat) (newStock : Int)
deriving DecidableEq, Repr

/-- `session.get(Frame, id)`: primary-key lookup, also the core of `/get`
(`telegram_bot.py:743-760`). -/
def getById (s : Store) (i : Nat) : Option Frame :=
  s.frames.find? (fun f => decide (f.id = i))

/-- Overwrite the row with primary key `i` (primary keys are unique in the
table, so id-addressed update is the SQL row mutation). -/
def replaceById (l : List Frame) (i : Nat) (x : Frame) : List Frame :=
  l.map fun f => if f.id = i then x else f

/-- Delete the row with primary key `i` (`session.delete`). -/
def deleteById (l : List Frame) (i : Nat) : List Frame :=
  l.filter fun f => decide (f.id ≠ i)

/-- Field fill of the `/merge` command, `telegram_bot.py:692-695`: the nine
updatable fields of `/add` plus `brand`, each copied from the source row
only if the target's value is empty and the source's is not
`None`/blank. -/
def mergeFill (tgt src : Frame) : Frame :=
  { tgt with
    material := fillS tgt.material src.material
    lens_width := fillI tgt.lens_width src.lens_width
    bridge_size := fillI tgt.bridge_size src.bridge_size
    temple_length := fillI tgt.temple_length src.temple_length
    color := fillS tgt.color src.color
    shape := fillS tgt.shape src.shape
    gender := fillS tgt.gender src.gender
    price := fillQ tgt.price src.price
    notes := fillS tgt.notes src.notes
    brand := fillS tgt.brand src.brand }

/-- The `/merge` command core, `telegram_bot.py:672-699`: equal ids are
rejected before any store access; otherwise both rows are looked up, the
target's stock becomes the sum, fields are filled, the source row is
deleted and everything is committed at once. -/
def mergeCmd (s : Store) (sid tid : Nat) : MergeRes × Store :=
  if sid = tid then (.mustDiffer, s)
  else
    match getById s sid, getById s tid with
    | some src, some tgt =>
      let t2 := mergeFill { tgt with stock := tgt.stock + src.stock } src
      (.merged sid tid t2.stock,
       { s with frames := deleteById (replaceById s.frames tid t2) sid })
    | _, _ => (.notFound, s)

/-- One settable-field name of the upsert fill policy (the nine-field set
of `telegram_bot.py:312-314`). -/
inductive UpdField where
  | material | lensWidth | bridgeSize | templeLength
  | color | shape | gender | price | notes
deriving DecidableEq, Repr

/-- A field value of any of the three column types, for stating the fill
policy uniformly over the field set. -/
inductive Val where
  | vs (v : Option Str)
  | vi (v : Option Int)
  | vq (v : Option ℚ)
deriving DecidableEq, Repr

/-- Read one updatable field of a stored row. -/
def Frame.getU : Frame → UpdField → Val
  | f, .material => .vs f.material
  | f, .lensWidth => .vi f.lens_width
  | f, .bridgeSize => .vi f.bridge_size
  | f, .templeLength => .vi f.temple_length
  | f, .color => .vs f.color
  | f, .shape => .vs f.shape
  | f, .gender => .vs f.gender
  | f, .price => .vq f.price
  | f, .notes => .vs f.notes

/-- Read one updatable field of a candidate dictionary. -/
def Cand.getU : Cand → UpdField → Val
  | c, .material => .vs c.material
  | c, .lensWidth => .vi c.lens_width
  | c, .bridgeSize => .vi c.bridge_size
  | c, .templeLength => .vi c.temple_length
  | c, .color => .vs c.color
  | c, .shape => .vs c.shape
  | c, .gender => .vs c.gender
  | c, .price => .vq c.price
  | c, .notes => .vs c.notes

/-- Python `v in (None, "", 0)` lifted to `Val`. -/
def pyEmptyV : Val → Bool
  | .vs v => pyEmptyS v
  | .vi v => pyEmptyI v
  | .vq v => pyEmptyQ v

/-- Python `v not in (None, "")` lifted to `Val`. -/
def srcOkV : Val → Bool
  | .vs v => srcOkS v
  | .vi v => srcOkI v
  | .vq v => srcOkQ v

/-- Key present in the candidate dictionary. -/
def suppliedV : Val → Bool
  | .vs v => v.isSome
  | .vi v => v.isSome
  | .vq v => v.isSome

/-- Contiguous-prefix test on character lists. -/
def listIsPref : Str → Str → Bool
  | [], _ => true
  | _ :: _, [] => false
  | a :: as, b :: bs => decide (a = b) && listIsPref as bs

/-- Contiguous-substring test on character lists — the semantics of a SQL
`LIKE` pattern of shape percent-pattern-percent. -/
def listHasSub (pat : Str) : Str → Bool
  | [] => listIsPref pat []
  | b :: bs => listIsPref pat (b :: bs) || listHasSub pat bs

/-- SQLAlchemy `col.ilike(f"%{v}%")`: case-insensitive substring match; a
NULL column never matches. -/
def ilike (col : Option Str) (pat : Str) : Bool :=
  match col with
  | none => false
  | some s => listHasSub (lowerStr pat) (lowerStr s)

/-- The material coercion of `normalize_fields`, `telegram_bot.py:282-284`:
a material value whose lowercase form is outside `MATERIAL_CHOICES` is
replaced by `"unknown"`. -/
def normMaterial (v : Str) : Str :=
  if lowerStr v ∈ MATERIAL_CHOICES then v else "unknown".data

/-- The bot `/search` material criterion, `telegram_bot.py:702-724`: the
raw value passes through `normalize_fields` (hence `normMaterial`) and is
then matched with `ilike`. -/
def botMaterialPred (raw : Str) (f : Frame) : Bool :=
  ilike f.material (normMaterial raw)

/-- Rows returned by the bot `/search` for a lone material criterion
(ordering and limit omitted — the claim is about membership). -/
def botSearchMaterial (l : List Frame) (raw : Str) : List Frame :=
  l.filter (botMaterialPred raw)

/-- The CLI search material criterion, `main.py:101` and
`main.py:115-119`: the prompt lowercases the raw value and
`search_frames` applies it directly with `ilike` — no enum validation. -/
def cliMaterialPred (raw : Str) (f : Frame) : Bool :=
  ilike f.material (lowerStr raw)

/-- Python `any(ch in s for ch in [',', '"', '\n'])`,
`telegram_bot.py:235`. -/
def needsQuote (s : Str) : Bool :=
  s.contains ',' || s.contains '"' || s.contains '\n'

/-- Python `s.replace('"', '""')` for the one-character pattern,
`telegram_bot.py:236`. -/
def dupQuotes : Str → Str
  | [] => []
  | c :: cs => if c = '"' then '"' :: '"' :: dupQuotes cs else c :: dupQuotes cs

/-- The CSV field renderer `esc` of `/export`, `telegram_bot.py:230-237`:
`None` renders as the empty string; a value containing a comma, double
quote or newline is wrapped in double quotes with internal double quotes
doubled; anything else is rendered verbatim. -/
def esc (v : Option Str) : Str :=
  match v with
  | none => []
  | some s => if needsQuote s then '"' :: (dupQuotes s ++ ['"']) else s

/-- Whether a rendered field is in quoted form (starts with a double
quote). -/
def isQuotedOut : Str → Bool
  | [] => false
  | c :: _ => decide (c = '"')

/-- Undo quote doubling.  Part of the standard CSV field reader, modelled
from the spec's "parsed by a standard CSV reader" (not code of this
repository). -/
def undupQuotes : Str → Str
  | [] => []
  | '"' :: '"' :: cs => '"' :: undupQuotes cs
  | c :: cs => c :: undupQuotes cs

/-- Standard CSV decoding of one rendered field: a field starting with a
double quote is read by stripping the surrounding quotes and undoubling
internal ones; any other field is read verbatim.  Modelled from the spec's
"standard CSV reader". -/
def csvReadField (s : Str) : Str :=
  match s with
  | '"' :: rest => undupQuotes rest.dropLast
  | _ => s

/-- SQL `AVG(col)`: NULL on the empty set, otherwise the mean. -/
def sqlAvg (xs : List ℚ) : Option ℚ :=
  if xs = [] then none else some (xs.sum / (xs.length : ℚ))

/-- The non-NULL prices of the table — SQL `AVG(price)` ignores NULLs. -/
def framePrices (l : List Frame) : List ℚ :=
  l.filterMap fun f => f.price

/-- The rendered average price of `/stats`, `telegram_bot.py:579-580`:
`avg_price_txt = f"{avg_price:.2f}" if avg_price else "-"`.  `none` is the
`"-"` marker; a numeric cell is `some` of the value whose two-decimal form
is printed.  Both a NULL average (no priced rows) and an average that is
exactly `0.0` are falsy in Python and render as the marker. -/
def avgPriceCell (l : List Frame) : Option ℚ :=
  match sqlAvg (framePrices l) with
  | none => none
  | some q => if q = 0 then none else some q

/-- SQL `SUM(stock)` with the `or 0` of `telegram_bot.py:581`. -/
def totalStock (l : List Frame) : Int :=
  (l.map fun f => f.stock).sum

/-- The rendered average stock per frame of `/stats`,
`telegram_bot.py:602`: `f"{(total_stock/total):.2f}" if total else "-"`.
The division is evaluated only under the `total` truthiness guard. -/
def avgStockCell (l : List Frame) : Option ℚ :=
  if l.length = 0 then none else some ((totalStock l : ℚ) / (l.length : ℚ))

/-! ## Helper lemmas -/

/-- A character outside the ASCII uppercase range is unchanged by
`Char.toLower`. -/
theorem toLower_eq_self (c : Char) (h : ¬(c.toNat ≥ 65 ∧ c.toNat ≤ 90)) :
    c.toLower = c := by
  unfold Char.toLower; simp [h]

/-- An ASCII uppercase character is shifted by 32 by `Char.toLower`. -/
theorem toLower_upper (c : Char) (h : c.toNat ≥ 65 ∧ c.toNat ≤ 90) :
    c.toLower = Char.ofNat (c.toNat + 32) := by
  unfold Char.toLower; simp [h]

/-- Lowercasing a character twice is the same as lowercasing it once. -/
theorem toLower_idem (c : Char) : c.toLower.toLower = c.toLower := by
  by_cases h : c.toNat ≥ 65 ∧ c.toNat ≤ 90
  · rw [toLower_upper c h]
    apply toLower_eq_self
    have hv : (c.toNat + 32).isValidChar := by left; omega
    have ht : (Char.ofNat (c.toNat + 32)).toNat = c.toNat + 32 := by
      simp [Char.ofNat, hv]
      rfl
    rw [ht]; omega
  · rw [toLower_eq_self c h, toLower_eq_self c h]

/-- Lowercasing a string twice is the same as lowercasing it once. -/
theorem lowerStr_idem (s : Str) : lowerStr (lowerStr s) = lowerStr s := by
  simp only [lowerStr, List.map_map]
  exact List.map_congr_left fun c _ => toLower_idem c

/-- Behaviour of a fill-only-if-empty assignment: an existing non-empty
value is kept; a change implies the existing value was empty and the
incoming one acceptable; an empty existing value is overwritten by an
acceptable incoming one. -/
theorem fillBy_spec {α : Type} (em ok : Option α → Bool) (ex c : Option α) :
    (em ex = false → fillBy em ok ex c = ex) ∧
    (fillBy em ok ex c ≠ ex → em ex = true ∧ ok c = true) ∧
    (em ex = true → ok c = true → fillBy em ok ex c = c) := by
  cases hem : em ex <;> cases hok : ok c <;> simp [fillBy, hem, hok]

/-! ## Claim theorems -/

/-- C4: for every id A, `/merge A A` is rejected with the
source-must-differ error (the code's rendering of `InvalidArgumentError`)
before any store access, and the store is returned unchanged, so every
record is unchanged by the failed call. -/
theorem merge_same_id_rejected_no_mutation (s : Store) (i : Nat) :
    mergeCmd s i i = (MergeRes.mustDiffer, s) := by
  simp [mergeCmd]

/-- C9: `/stats` on an empty record set renders both the average price and
the average stock per record as the `"-"` marker (`none` cell), and the
average-stock division is evaluated only when the record count is non-zero:
the cell is the marker exactly on the empty record set. -/
theorem stats_empty_averages_unavailable :
    avgPriceCell [] = none ∧ avgStockCell [] = none ∧
    (∀ l : List Frame, avgStockCell l = none ↔ l = []) := by
  refine ⟨rfl, rfl, ?_⟩
  intro l
  cases l with
  | nil => simp [avgStockCell]
  | cons f fs => simp [avgStockCell]

/-- C10: when at least one record has a recorded price and every recorded
price is exactly 0, the computed average is 0, which is falsy in Python, so
the average-price cell is the same `"-"` marker as in the no-data case:
the marker does not imply that no priced records exist. -/
theorem stats_zero_avg_price_same_marker (l : List Frame)
    (hne : framePrices l ≠ [])
    (hz : ∀ q ∈ framePrices l, q = 0) :
    avgPriceCell l = none ∧ avgPriceCell l = avgPriceCell [] := by
  have hsum : (framePrices l).sum = 0 := List.sum_eq_zero hz
  have havg : sqlAvg (framePrices l) = some 0 := by
    simp [sqlAvg, hne, hsum]
  have h1 : avgPriceCell l = none := by simp [avgPriceCell, havg]
  exact ⟨h1, by rw [h1]; rfl⟩

/-- Witness for C10 at a concrete store: one record priced 0 and one
unpriced record. -/
theorem stats_zero_avg_price_same_marker_witness :
    avgPriceCell [{ model_code := "m".data, price := some 0 },
      { model_code := "n".data }] = none :=
  (stats_zero_avg_price_same_marker
    [{ model_code := "m".data, price := some 0 }, { model_code := "n".data }]
    (by decide) (by decide)).1

/-- C8: the CSV field renderer maps an absent value to the empty string;
a value containing a comma, double quote or newline is rendered wrapped in
double quotes with internal double quotes doubled, and the rendered field
is in quoted form exactly when the value contains such a character; the
notes value `He said "hi", then left` renders as
`"He said ""hi"", then left"` and decodes back to the original text under
standard CSV field reading. -/
theorem csv_escape_spec :
    esc none = [] ∧
    (∀ s : Str, needsQuote s = true → esc (some s) = '"' :: (dupQuotes s ++ ['"'])) ∧
    (∀ s : Str, isQuotedOut (esc (some s)) = needsQuote s) ∧
    esc (some "He said \"hi\", then left".data)
      = "\"He said \"\"hi\"\", then left\"".data ∧
    csvReadField (esc (some "He said \"hi\", then left".data))
      = "He said \"hi\", then left".data := by
  refine ⟨rfl, ?_, ?_, by decide, by decide⟩
  · intro s h
    simp [esc, h]
  · intro s
    cases h : needsQuote s with
    | true => simp [esc, h, isQuotedOut]
    | false =>
      have hes : esc (some s) = s := by simp [esc, h]
      rw [hes]
      cases s with
      | nil => rfl
      | cons c cs =>
        simp only [isQuotedOut, decide_eq_false_iff_not]
        intro hq
        subst hq
        simp [needsQuote, List.contains_cons] at h

/-- Witness for C8's quoting clause at the concrete value `a,b`. -/
theorem csv_escape_spec_witness :
    esc (some "a,b".data) = '"' :: (dupQuotes "a,b".data ++ ['"']) :=
  csv_escape_spec.2.1 "a,b".data (by decide)

/-- C2 is refuted as stated, on both merge paths.  In the `/add` merge
path a candidate value that is the numeric zero (here `price = 0.0`,
obtained from `/add ... price=0`) is copied into the existing record,
because the code checks `norm[f] not in (None, "")` and `0.0` passes that
test.  In the `/new` confirm merge path the code checks only `f in data`,
so even a blank candidate value (here `color=""`), and likewise a numeric
zero one, is copied into an empty field.  The claim requires every copied
candidate value to be non-empty, with "non-empty" excluding absent, blank
and numeric zero. -/
theorem upsert_fill_copies_zero_candidate :
    ({ model_code := "m".data : Frame }).price = none ∧
    (mergeInto { model_code := "m".data } { price := some 0 }).price = some 0 ∧
    ({ model_code := "m".data : Frame }).color = none ∧
    (mergeIntoNC { model_code := "m".data } { color := some [] }).color = some [] ∧
    (mergeIntoNC { model_code := "m".data } { price := some 0 }).price = some 0 := by
  decide

/-- C2 amended: for every merge-path upsert and every settable field, an
existing non-empty value is never overwritten (by either the `/add` or the
`/new` confirm path); the `/add` path copies the candidate's value exactly
when the existing value is empty (absent, blank or numeric zero) and the
candidate value is present and not `None`/blank — a numeric zero candidate
counts as supplied and is copied; the `/new` confirm path copies the
candidate's value exactly when the existing value is empty and the key is
present, even if the supplied value is blank or zero. -/
theorem upsert_fill_only_if_empty_amended (ex : Frame) (c : Cand) (fld : UpdField) :
    (pyEmptyV (ex.getU fld) = false →
      (mergeInto ex c).getU fld = ex.getU fld ∧
      (mergeIntoNC ex c).getU fld = ex.getU fld) ∧
    ((mergeInto ex c).getU fld ≠ ex.getU fld →
      pyEmptyV (ex.getU fld) = true ∧ srcOkV (c.getU fld) = true) ∧
    ((mergeIntoNC ex c).getU fld ≠ ex.getU fld →
      pyEmptyV (ex.getU fld) = true ∧ suppliedV (c.getU fld) = true) ∧
    (pyEmptyV (ex.getU fld) = true → srcOkV (c.getU fld) = true →
      (mergeInto ex c).getU fld = c.getU fld) ∧
    (pyEmptyV (ex.getU fld) = true → suppliedV (c.getU fld) = true →
      (mergeIntoNC ex c).getU fld = c.getU fld) := by
  cases fld <;>
    · simp only [Frame.getU, Cand.getU, mergeInto, mergeIntoNC, pyEmptyV, srcOkV,
        suppliedV, fillS, fillI, fillQ, fillNCS, fillNCI, fillNCQ,
        Val.vs.injEq, Val.vi.injEq, Val.vq.injEq, ne_eq]
      exact ⟨fun h => ⟨(fillBy_spec _ _ _ _).1 h, (fillBy_spec _ _ _ _).1 h⟩,
        fun h => (fillBy_spec _ _ _ _).2.1 h,
        fun h => (fillBy_spec _ _ _ _).2.1 h,
        fun h1 h2 => (fillBy_spec _ _ _ _).2.2 h1 h2,
        fun h1 h2 => (fillBy_spec _ _ _ _).2.2 h1 h2⟩

/-- Witness for C2's amended claim: on the `/add` path an empty material
is filled from a supplied non-blank candidate value, and on the `/new`
confirm path an empty color is filled from a supplied blank candidate
value. -/
theorem upsert_fill_only_if_empty_amended_witness :
    (mergeInto { model_code := "m".data } { material := some "metal".data }).getU
      UpdField.material = Val.vs (some "metal".data) ∧
    (mergeIntoNC { model_code := "m".data } { color := some [] }).getU
      UpdField.color = Val.vs (some []) :=
  ⟨(upsert_fill_only_if_empty_amended { model_code := "m".data }
      { material := some "metal".data } UpdField.material).2.2.2.1 (by decide) (by decide),
   (upsert_fill_only_if_empty_amended { model_code := "m".data }
      { color := some [] } UpdField.color).2.2.2.2 (by decide) (by decide)⟩

/-- C7 is refuted as stated: the bot `/search` passes the material
criterion through `normalize_fields`, which coerces the out-of-enum value
`zzz` to `unknown`; the record with material `unknown` is therefore
returned, while a literal case-insensitive substring match of `zzz` would
have matched nothing. -/
theorem bot_search_material_coerced :
    lowerStr "zzz".data ∉ MATERIAL_CHOICES ∧
    botSearchMaterial [{ model_code := "m".data, material := some "unknown".data }]
      "zzz".data = [{ model_code := "m".data, material := some "unknown".data }] ∧
    ilike (some "unknown".data) "zzz".data = false := by
  decide

/-- C7 amended: for a material criterion outside the closed enumeration,
the bot front end matches as if the criterion were the literal `unknown`
(coercion, not literal substring match), while the CLI front end
(`search_frames`) applies the raw value as a literal case-insensitive
substring match without enum validation. -/
theorem material_criterion_amended (raw : Str) (f : Frame)
    (h : lowerStr raw ∉ MATERIAL_CHOICES) :
    botMaterialPred raw f = ilike f.material "unknown".data ∧
    cliMaterialPred raw f = ilike f.material raw := by
  constructor
  · simp [botMaterialPred, normMaterial, h]
  · cases hm : f.material with
    | none => simp [cliMaterialPred, ilike, hm]
    | some s => simp [cliMaterialPred, ilike, hm, lowerStr_idem]

/-- Witness for C7's amended claim at the out-of-enum criterion `zzz`
against a record with material `wood`. -/
theorem material_criterion_amended_witness :
    botMaterialPred "zzz".data { model_code := "m".data, material := some "wood".data }
      = ilike (some "wood".data) "unknown".data ∧
    cliMaterialPred "zzz".data { model_code := "m".data, material := some "wood".data }
      = ilike (some "wood".data) "zzz".data :=
  material_criterion_amended "zzz".data
    { model_code := "m".data, material := some "wood".data } (by decide)

/-- Replacing the first matching row keeps the table size. -/
theorem length_replaceFirst (p : Frame → Bool) (x : Frame) (l : List Frame) :
    (replaceFirst p x l).length = l.length := by
  induction l with
  | nil => rfl
  | cons f fs ih =>
    by_cases h : p f <;> simp [replaceFirst, h, ih]

/-- C5 is refuted as stated: the CLI front end's add (`main.py`
`add_frame`) inserts unconditionally, so submitting a candidate whose
Matching Key is already present leaves two records with that key. -/
theorem cli_add_creates_duplicate_key :
    (([{ id := 0, model_code := "m".data, stock := 1 }] : List Frame).countP
      fun fr => decide (frameKey fr = ([], "m".data))) = 1 ∧
    ((add_frame ⟨[{ id := 0, model_code := "m".data, stock := 1 }], 1⟩
        { model_code := "M".data }).frames.countP
      fun fr => decide (frameKey fr = ([], "m".data))) = 2 := by
  decide

/-- C5 amended: the bot front end's `/add` is a true upsert — when a
record with the candidate's Matching Key exists it takes the merge path
and the record count is unchanged — but the CLI front end's add always
inserts one more record, whatever keys are present. -/
theorem bot_upsert_merges_cli_inserts :
    (∀ (s : Store) (c : Cand) (now : Nat) (m : Str), c.model_code = some m →
      (s.frames.find? (keyMatches c)).isSome →
      (addCmd s c now).2.frames.length = s.frames.length ∧
      ∃ i o n, (addCmd s c now).1 = AddRes.updated i o n) ∧
    (∀ (s : Store) (f : Frame), (add_frame s f).frames.length = s.frames.length + 1) := by
  constructor
  · intro s c now m hm hfound
    obtain ⟨ex, hex⟩ := Option.isSome_iff_exists.mp hfound
    refine ⟨?_, ex.id, ex.stock, (mergeInto ex c).stock, ?_⟩ <;>
      simp [addCmd, hm, hex, length_replaceFirst]
  · intro s f
    simp [add_frame]

/-- Witness for C5's amended claim: a store holding the key, a matching
candidate, and a CLI insert. -/
theorem bot_upsert_merges_cli_inserts_witness :
    (addCmd ⟨[{ id := 0, model_code := "m".data, stock := 1 }], 1⟩
      { model_code := some "m".data } 0).2.frames.length = 1 ∧
    (add_frame ⟨[{ id := 0, model_code := "m".data, stock := 1 }], 1⟩
      { model_code := "x".data }).frames.length = 2 := by
  have h := bot_upsert_merges_cli_inserts
  have h1 := h.1 ⟨[{ id := 0, model_code := "m".data, stock := 1 }], 1⟩
    { model_code := some "m".data } 0 "m".data rfl (by decide)
  have h2 := h.2 ⟨[{ id := 0, model_code := "m".data, stock := 1 }], 1⟩
    { model_code := "x".data }
  exact ⟨h1.1, h2⟩

/-- The row built by the `/add` create path carries the candidate's
Matching Key. -/
theorem frameKey_mkFrame (c : Cand) (m : Str) (idv now : Nat)
    (hm : c.model_code = some m) :
    frameKey (mkFrame c m idv now) = candKey c := by
  simp only [frameKey, mkFrame, candKey, hm, Option.getD_some]
  cases c.brand with
  | none => simp [lowerStr]
  | some b => simp

/-- C1: submitting two candidates with the same normalized Matching Key
against a store free of that key first creates a record — stock defaulting
to 1 when the first candidate supplies none — and then takes the merge
path (the `updated` reply, the code's rendering of status `merged`), the
final stock being the created stock plus the second candidate's
contribution, which is its stock when present and non-zero and exactly 1
when absent or zero. -/
theorem upsert_sequence_created_then_merged
    (s : Store) (c1 c2 : Cand) (m1 m2 : Str) (t1 t2 : Nat)
    (h1 : c1.model_code = some m1) (h2 : c2.model_code = some m2)
    (hkey : candKey c1 = candKey c2)
    (hfree : ∀ f ∈ s.frames, keyMatches c1 f = false) :
    (addCmd s c1 t1).1 = AddRes.created s.nextId (c1.stock.getD 1) ∧
    (addCmd (addCmd s c1 t1).2 c2 t2).1 =
      AddRes.updated s.nextId (c1.stock.getD 1)
        (c1.stock.getD 1 + (if c2.stock.getD 0 = 0 then 1 else c2.stock.getD 0)) := by
  have hnone : s.frames.find? (keyMatches c1) = none :=
    List.find?_eq_none.mpr (fun f hf => by simp [hfree f hf])
  have hstep1 : addCmd s c1 t1 =
      (AddRes.created s.nextId ((mkFrame c1 m1 s.nextId t1).stock),
       ⟨s.frames ++ [mkFrame c1 m1 s.nextId t1], s.nextId + 1⟩) := by
    simp [addCmd, h1, hnone]
  have hmatch : keyMatches c2 (mkFrame c1 m1 s.nextId t1) = true := by
    simp [keyMatches, frameKey_mkFrame c1 m1 s.nextId t1 h1, hkey]
  have hnone2 : s.frames.find? (keyMatches c2) = none := by
    refine List.find?_eq_none.mpr (fun f hf => ?_)
    have hcongr : keyMatches c2 f = keyMatches c1 f := by
      simp [keyMatches, ← hkey]
    simp [hcongr, hfree f hf]
  have hfind2 : (s.frames ++ [mkFrame c1 m1 s.nextId t1]).find? (keyMatches c2)
      = some (mkFrame c1 m1 s.nextId t1) := by
    rw [List.find?_append, hnone2]
    simp [List.find?, hmatch]
  constructor
  · rw [hstep1]
    rfl
  · rw [hstep1]
    simp only [addCmd, h2, hfind2]
    rfl

/-- Witness for C1: two concrete candidates with the same key (up to
case), the first without a stock, the second with stock 5, against the
empty store. -/
theorem upsert_sequence_created_then_merged_witness :
    (addCmd ⟨[], 0⟩ { model_code := some "m".data } 0).1 = AddRes.created 0 1 ∧
    (addCmd (addCmd ⟨[], 0⟩ { model_code := some "m".data } 0).2
      { model_code := some "M".data, stock := some 5 } 0).1
      = AddRes.updated 0 1 6 := by
  have h := upsert_sequence_created_then_merged ⟨[], 0⟩
    { model_code := some "m".data } { model_code := some "M".data, stock := some 5 }
    "m".data "M".data 0 0 rfl rfl (by decide) (by intro f hf; simp at hf)
  simpa using h

/-- With pairwise distinct primary keys, a table containing a row with id
`i` contains exactly one such row. -/
theorem countP_id_one (l : List Frame) (i : Nat)
    (hnd : (l.map fun f => f.id).Nodup) (hx : ∃ f ∈ l, f.id = i) :
    l.countP (fun f => decide (f.id = i)) = 1 := by
  induction l with
  | nil => simp at hx
  | cons f fs ih =>
    rw [List.map_cons, List.nodup_cons] at hnd
    by_cases hfi : f.id = i
    · rw [List.countP_cons_of_pos _ _ (by simp [hfi])]
      have hz : fs.countP (fun g => decide (g.id = i)) = 0 := by
        rw [List.countP_eq_zero]
        intro x hxmem
        simp only [decide_eq_true_eq]
        intro hxi
        exact hnd.1 (List.mem_map.mpr ⟨x, hxmem, hxi.trans hfi.symm⟩)
      rw [hz]
    · rw [List.countP_cons_of_neg _ _ (by simp [hfi])]
      apply ih hnd.2
      obtain ⟨g, hg, hgi⟩ := hx
      rcases List.mem_cons.mp hg with hgf | hgfs
      · exact absurd (hgf ▸ hgi) hfi
      · exact ⟨g, hgfs, hgi⟩

/-- Deleting the row with id `i` from a table holding exactly one such row
shrinks the table by one. -/
theorem length_deleteById_of_unique (l : List Frame) (i : Nat)
    (h1 : l.countP (fun f => decide (f.id = i)) = 1) :
    (deleteById l i).length + 1 = l.length := by
  induction l with
  | nil => simp at h1
  | cons f fs ih =>
    by_cases hfi : f.id = i
    · rw [List.countP_cons_of_pos _ _ (by simp [hfi])] at h1
      have hz : fs.countP (fun g => decide (g.id = i)) = 0 := by omega
      have hall : ∀ x ∈ fs, ¬ x.id = i := by
        intro x hx
        simpa using List.countP_eq_zero.mp hz x hx
      have hcons : deleteById (f :: fs) i = deleteById fs i := by
        simp [deleteById, List.filter_cons, hfi]
      have hself : deleteById fs i = fs :=
        List.filter_eq_self.mpr (fun x hx => by simpa using hall x hx)
      rw [hcons, hself]
      simp
    · have hcons : deleteById (f :: fs) i = f :: deleteById fs i := by
        simp [deleteById, List.filter_cons, hfi]
      rw [List.countP_cons_of_neg _ _ (by simp [hfi])] at h1
      rw [hcons]
      simpa using ih h1

/-- An id-addressed row overwrite with a row carrying that id leaves the
table's primary-key column unchanged. -/
theorem ids_replaceById (l : List Frame) (i : Nat) (x : Frame) (hx : x.id = i) :
    (replaceById l i x).map (fun f => f.id) = l.map (fun f => f.id) := by
  simp only [replaceById, List.map_map]
  apply List.map_congr_left
  intro f _
  by_cases h : f.id = i <;> simp [h, hx]

/-- Behaviour of a successful `/merge`: the reply reports the summed
stock, the target id resolves to the filled target row with summed stock,
and the source id no longer resolves. -/
theorem mergeCmd_found (s : Store) (sid tid : Nat) (src tgt : Frame)
    (hne : sid ≠ tid) (hs : getById s sid = some src) (ht : getById s tid = some tgt) :
    (mergeCmd s sid tid).1
      = MergeRes.merged sid tid (tgt.stock + src.stock) ∧
    getById (mergeCmd s sid tid).2 tid
      = some (mergeFill { tgt with stock := tgt.stock + src.stock } src) ∧
    getById (mergeCmd s sid tid).2 sid = none := by
  have htid : tgt.id = tid := by simpa using List.find?_some ht
  obtain ⟨t2, ht2def⟩ :
      ∃ t2, mergeFill { tgt with stock := tgt.stock + src.stock } src = t2 := ⟨_, rfl⟩
  have ht2id : t2.id = tid := by rw [← ht2def]; simp [mergeFill, htid]
  have hstock : t2.stock = tgt.stock + src.stock := by rw [← ht2def]; simp [mergeFill]
  have hfst : (mergeCmd s sid tid).1 = MergeRes.merged sid tid (tgt.stock + src.stock) := by
    simp [mergeCmd, hne, hs, ht, ht2def, hstock]
  have hsnd : (mergeCmd s sid tid).2.frames = deleteById (replaceById s.frames tid t2) sid := by
    simp [mergeCmd, hne, hs, ht, ht2def]
  refine ⟨hfst, ?_, ?_⟩
  · rw [ht2def]
    simp only [getById]
    rw [hsnd]
    have htgtmem : tgt ∈ s.frames := List.mem_of_find?_eq_some ht
    have ht2mem : t2 ∈ replaceById s.frames tid t2 :=
      List.mem_map.mpr ⟨tgt, htgtmem, by simp [htid, ht2def]⟩
    have ht2mem2 : t2 ∈ deleteById (replaceById s.frames tid t2) sid := by
      simp only [deleteById]
      refine List.mem_filter.mpr ⟨ht2mem, ?_⟩
      simp [ht2id]
      exact fun h => hne h.symm
    have hex : ((deleteById (replaceById s.frames tid t2) sid).find?
        (fun f => decide (f.id = tid))).isSome :=
      List.find?_isSome.mpr ⟨t2, ht2mem2, by simp [ht2id]⟩
    obtain ⟨a, ha⟩ := Option.isSome_iff_exists.mp hex
    have haid : a.id = tid := by simpa using List.find?_some ha
    have hamem : a ∈ deleteById (replaceById s.frames tid t2) sid :=
      List.mem_of_find?_eq_some ha
    have hamap : a ∈ replaceById s.frames tid t2 := by
      simp only [deleteById] at hamem
      exact (List.mem_filter.mp hamem).1
    obtain ⟨g, hg, hga⟩ := List.mem_map.mp hamap
    by_cases hgi : g.id = tid
    · rw [ha]
      rw [← hga]
      simp [hgi]
    · exfalso
      rw [← hga] at haid
      simp [hgi] at haid
  · simp only [getById]
    rw [hsnd]
    refine List.find?_eq_none.mpr (fun x hx => ?_)
    simp only [deleteById] at hx
    have := (List.mem_filter.mp hx).2
    simpa using this

/-- C3: merging two distinct existing records leaves exactly one surviving
record — the target, keeping its id — whose stock is the sum of the two
pre-merge stocks; the source id no longer resolves via `get`; and the
table shrinks by exactly one row.  Both effects are produced by the single
state transition of `mergeCmd`, the embedding of the one
`session.commit()` covering the deletion and the mutation. -/
theorem merge_two_distinct_records_spec (s : Store) (sid tid : Nat) (src tgt : Frame)
    (hne : sid ≠ tid) (hs : getById s sid = some src) (ht : getById s tid = some tgt)
    (hnd : (s.frames.map fun f => f.id).Nodup) :
    (mergeCmd s sid tid).1 = MergeRes.merged sid tid (tgt.stock + src.stock) ∧
    (∃ t, getById (mergeCmd s sid tid).2 tid = some t ∧ t.id = tid ∧
      t.stock = tgt.stock + src.stock) ∧
    getById (mergeCmd s sid tid).2 sid = none ∧
    (mergeCmd s sid tid).2.frames.length + 1 = s.frames.length := by
  obtain ⟨h1, h2, h3⟩ := mergeCmd_found s sid tid src tgt hne hs ht
  have htid : tgt.id = tid := by simpa using List.find?_some ht
  have hsid : src.id = sid := by simpa using List.find?_some hs
  refine ⟨h1, ⟨_, h2, by simp [mergeFill, htid], by simp [mergeFill]⟩, h3, ?_⟩
  have hsnd : (mergeCmd s sid tid).2.frames = deleteById
      (replaceById s.frames tid (mergeFill { tgt with stock := tgt.stock + src.stock } src)) sid := by
    simp [mergeCmd, hne, hs, ht]
  rw [hsnd]
  have ht2id : (mergeFill { tgt with stock := tgt.stock + src.stock } src).id = tid := by
    simp [mergeFill, htid]
  have hids := ids_replaceById s.frames tid
    (mergeFill { tgt with stock := tgt.stock + src.stock } src) ht2id
  have hlen : (replaceById s.frames tid
      (mergeFill { tgt with stock := tgt.stock + src.stock } src)).length
      = s.frames.length := by
    simp [replaceById]
  rw [← hlen]
  apply length_deleteById_of_unique
  apply countP_id_one
  · rw [hids]; exact hnd
  · refine ⟨src, ?_, hsid⟩
    refine List.mem_map.mpr ⟨src, List.mem_of_find?_eq_some hs, ?_⟩
    have : ¬ src.id = tid := by rw [hsid]; exact hne
    simp [this]

/-- Witness for C3: a two-row store, merging row 1 (stock 2) into row 2
(stock 3). -/
theorem merge_two_distinct_records_spec_witness :
    (mergeCmd ⟨[{ id := 1, model_code := "a".data, stock := 2 },
      { id := 2, model_code := "b".data, stock := 3 }], 3⟩ 1 2).1
      = MergeRes.merged 1 2 5 ∧
    getById (mergeCmd ⟨[{ id := 1, model_code := "a".data, stock := 2 },
      { id := 2, model_code := "b".data, stock := 3 }], 3⟩ 1 2).2 1 = none ∧
    (mergeCmd ⟨[{ id := 1, model_code := "a".data, stock := 2 },
      { id := 2, model_code := "b".data, stock := 3 }], 3⟩ 1 2).2.frames.length + 1 = 2 := by
  have h := merge_two_distinct_records_spec
    ⟨[{ id := 1, model_code := "a".data, stock := 2 },
      { id := 2, model_code := "b".data, stock := 3 }], 3⟩ 1 2
    { id := 1, model_code := "a".data, stock := 2 }
    { id := 2, model_code := "b".data, stock := 3 }
    (by decide) (by decide) (by decide) (by decide)
  exact ⟨h.1, h.2.2.1, h.2.2.2⟩

/-- C6 is refuted as stated: the `/merge` fill list includes `brand`, so a
target with an empty brand takes the source's brand — a field the claim
says merge leaves unchanged. -/
theorem merge_changes_brand :
    (([{ id := 1, model_code := "a".data, stock := 2, brand := some "Ray".data },
       { id := 2, model_code := "b".data, stock := 3 }] : List Frame).map fun f => f.brand)
      = [some "Ray".data, none] ∧
    ((mergeCmd ⟨[{ id := 1, model_code := "a".data, stock := 2, brand := some "Ray".data },
       { id := 2, model_code := "b".data, stock := 3 }], 3⟩ 1 2).2.frames.map fun f => f.brand)
      = [some "Ray".data] := by
  decide

/-- C6 amended: the `/merge` field fill covers the nine upsert fields and
additionally `brand` (filled under the same only-if-empty policy); the
fields outside that extended set and stock — `modelCode`, `id`,
`createdAt` — are unchanged on the surviving target. -/
theorem merge_frame_effect_amended (s : Store) (sid tid : Nat) (src tgt : Frame)
    (hne : sid ≠ tid) (hs : getById s sid = some src) (ht : getById s tid = some tgt) :
    ∃ t, getById (mergeCmd s sid tid).2 tid = some t ∧
      t.model_code = tgt.model_code ∧ t.id = tgt.id ∧
      t.created_at = tgt.created_at ∧ t.brand = fillS tgt.brand src.brand := by
  obtain ⟨-, h2, -⟩ := mergeCmd_found s sid tid src tgt hne hs ht
  exact ⟨_, h2, by simp [mergeFill], by simp [mergeFill], by simp [mergeFill],
    by simp [mergeFill]⟩

/-- Witness for C6's amended claim on the two-row store of the
counterexample. -/
theorem merge_frame_effect_amended_witness :
    ∃ t, getById (mergeCmd
      ⟨[{ id := 1, model_code := "a".data, stock := 2, brand := some "Ray".data },
        { id := 2, model_code := "b".data, stock := 3 }], 3⟩ 1 2).2 2 = some t ∧
      t.model_code = "b".data ∧ t.id = 2 ∧ t.created_at = 0 ∧
      t.brand = fillS none (some "Ray".data) :=
  merge_frame_effect_amended
    ⟨[{ id := 1, model_code := "a".data, stock := 2, brand := some "Ray".data },
      { id := 2, model_code := "b".data, stock := 3 }], 3⟩ 1 2
    { id := 1, model_code := "a".data, stock := 2, brand := some "Ray".data }
    { id := 2, model_code := "b".data, stock := 3 }
    (by decide) (by decide) (by decide)
